import Mathlib

/-!
Verification of the decision-and-execution core of the Kabus scalping
assistant (Python sources under `scalper/` and `spoofing.py`).

The Python code is shallowly embedded: every Python `float` that carries a
price, quantity, score or time value is modelled as a rational number `ℚ`
(all constants appearing in the code and in the claims are dyadic, so this
is exact); Python `int` becomes `Int`; `Optional[x]` becomes `Option`;
in-place mutation of dataclasses becomes functional record update.  Audit
strings (log-only `reason` texts built with f-string float formatting) are
not modelled except where a claim refers to them (the risk manager's typed
reason strings).  External effects (`time.time()`, `time.localtime`) are
passed in as explicit arguments.
-/

namespace KabusGui

/-! ## scalper/execution/risk.py -/

/-- `RiskConfig` (risk.py): configuration limits for entry admission. -/
structure RiskConfig where
  max_pos_qty : Int := 1000
  max_consec_losses : Int := 5
  cooldown_sec : ℚ := 2
  enforce_market_hours : Bool := false
  deriving Repr, DecidableEq

/-- Mutable state of `RiskManager` (risk.py): `_open_qty`, `_last_entry_ts`,
`_consec_losses`, `_day_pnl_ticks`. -/
structure RiskState where
  open_qty : Int := 0
  last_entry_ts : ℚ := 0
  consec_losses : Int := 0
  day_pnl_ticks : ℚ := 0
  deriving Repr, DecidableEq

/-- Result of Python's `time.localtime(...)`: the fields the code reads
(`tm_wday`, `tm_hour`, `tm_min`).  `localtime` itself is an OS call, so the
converted calendar time is an explicit input of the embedding. -/
structure Tm where
  tm_wday : Nat
  tm_hour : Nat
  tm_min : Nat
  deriving Repr, DecidableEq

/-- `RiskManager._is_market_open` (risk.py, lines 37-46): always true when
`enforce_market_hours` is off; otherwise weekday and JST session check on
`hm = hour*100 + min`. -/
def is_market_open (cfg : RiskConfig) (t : Tm) : Bool :=
  if !cfg.enforce_market_hours then
    true
  else if 5 ≤ t.tm_wday then
    false
  else
    let hm := t.tm_hour * 100 + t.tm_min
    (900 ≤ hm && hm < 1130) || (1230 ≤ hm && hm < 1500)

/-- Python `now_ts or time.time()` for an `Optional[float] = None` argument:
falls back to the system clock when the argument is absent or `0.0`
(Python truthiness). -/
def resolveNow (now_ts : Option ℚ) (sysNow : ℚ) : ℚ :=
  match now_ts with
  | none => sysNow
  | some t => if t = 0 then sysNow else t

/-- `RiskManager.can_enter` (risk.py, lines 49-60), returning
`(ok, reason)`.  `tm` is `time.localtime` of the resolved clock value used
by `_is_market_open`. -/
def can_enter (cfg : RiskConfig) (st : RiskState) (qty : Int)
    (now_ts : Option ℚ) (sysNow : ℚ) (tm : Tm) : Bool × String :=
  if !is_market_open cfg tm then
    (false, "market_closed")
  else if qty ≤ 0 then
    (false, "qty<=0")
  else if cfg.max_pos_qty < st.open_qty + qty then
    (false, "pos_limit")
  else if cfg.max_consec_losses ≤ st.consec_losses then
    (false, "too_many_losses")
  else if resolveNow now_ts sysNow - st.last_entry_ts < cfg.cooldown_sec then
    (false, "cooldown")
  else
    (true, "ok")

/-- `RiskManager.on_entry_filled` (risk.py, lines 67-69); the entry
timestamp is the current clock, passed explicitly. -/
def on_entry_filled (st : RiskState) (qty : Int) (sysNow : ℚ) : RiskState :=
  { st with open_qty := st.open_qty + qty, last_entry_ts := sysNow }

/-- `RiskManager.on_exit_filled` (risk.py, lines 71-77). -/
def on_exit_filled (st : RiskState) (qty : Int) (pnl_ticks : ℚ) : RiskState :=
  { st with
    open_qty := max 0 (st.open_qty - qty)
    day_pnl_ticks := st.day_pnl_ticks + pnl_ticks
    consec_losses := if pnl_ticks < 0 then st.consec_losses + 1 else 0 }

/-- One call to a `RiskManager` bookkeeping callback. -/
inductive RiskCall where
  | entry (qty : Int) (sysNow : ℚ)
  | exit (qty : Int) (pnl_ticks : ℚ)
  deriving Repr, DecidableEq

/-- Replay a sequence of `RiskManager` entry/exit callback calls. -/
def runRiskCalls (st : RiskState) : List RiskCall → RiskState
  | [] => st
  | RiskCall.entry q t :: rest => runRiskCalls (on_entry_filled st q t) rest
  | RiskCall.exit q p :: rest => runRiskCalls (on_exit_filled st q p) rest

/-! ## spoofing.py -/

/-- `State` dataclass of spoofing.py: the per-cycle spoof verdict. -/
structure SpoofVerdict where
  side : String
  type : String
  score : ℚ
  age_ms : Int
  peak_size : ℚ
  deriving Repr, DecidableEq

/-- The two `_DEF_CFG` entries that `apply_gate` reads. -/
structure SpoofGateConfig where
  score_threshold : ℚ := 7/10
  suppress_weight : ℚ := 1/5
  deriving Repr, DecidableEq

/-- `SpoofDetector.apply_gate` (spoofing.py, lines 102-118), as a function
of the detector's `_last_state`.  Returns `(allow, adjusted_confidence)`;
the third component of the Python result is an audit string built from the
badge formatter and is not modelled.  `s.side == (proposed_side or '')` is
plain string equality for the `str`-typed argument, since `x or ''` is `x`
for every string except `''`, where it is `''` again. -/
def apply_gate (cfg : SpoofGateConfig) (last_state : Option SpoofVerdict)
    (proposed_side : String) (entry_confidence : ℚ) : Bool × ℚ :=
  match last_state with
  | none => (true, entry_confidence)
  | some s =>
    if cfg.score_threshold ≤ s.score ∧ s.side = proposed_side then
      (false, entry_confidence)
    else
      (true, max 0 (entry_confidence - cfg.suppress_weight * s.score))

/-! ## scalper/strategy/ml_gate.py -/

/-- The feature dictionary handed to the ML gate and the rule strategy.
The Python `Dict` is heterogeneous; this structure carries exactly the
numeric keys the embedded code reads (`feats.get(...)`), each `Option ℚ`
with `none` for an absent key or `None` value.  `recent_return_ticks` and
`tick_size` are the keys the policy loop adds on top of
`MarketSnapshot.to_features()`. -/
structure Feats where
  last : Option ℚ := none
  spread : Option ℚ := none
  imbalance : Option ℚ := none
  imb : Option ℚ := none
  tick_size : Option ℚ := none
  tick : Option ℚ := none
  macd : Option ℚ := none
  macd_sig : Option ℚ := none
  rsi14 : Option ℚ := none
  rsi : Option ℚ := none
  pushes_per_min : Option ℚ := none
  upd_per_min : Option ℚ := none
  vwap : Option ℚ := none
  recent_return_ticks : Option ℚ := none
  deriving Repr, DecidableEq

/-- Python `x or 0.0` on an optional float: `0.0` when the value is absent
or zero — numerically the same as `Option.getD x 0`. -/
def orZero (x : Option ℚ) : ℚ := x.getD 0

/-- `OrderIntent` (core/types.py).  The `meta` dict holds only the audit
key `"reasons"`. -/
structure OrderIntent where
  side : String
  qty : Int
  entry_type : String
  price : Option ℚ
  tp_ticks : Int
  sl_ticks : Int
  trail : Bool
  trail_trigger : Int
  trail_gap : Int
  meta_reasons : List String := []
  deriving Repr, DecidableEq

/-- `Decision` (core/types.py) without its audit-only `reason` string. -/
structure Decision where
  go : Bool
  prob_tp_first : ℚ := 1/2
  ev_ticks : ℚ := 0
  deriving Repr, DecidableEq

/-- `MLGateConfig` (ml_gate.py). -/
structure MLGateConfig where
  enabled : Bool := false
  min_prob : ℚ := 11/20
  min_ev_ticks : ℚ := 0
  cost_ticks : ℚ := 1/10
  deriving Repr, DecidableEq

/-- `MLGate._heuristic_proba` (ml_gate.py, lines 34-72).  `expFn` stands
for `math.exp`; it is an arbitrary function here because every claim about
the heuristic goes through the final clamp to `[0.01, 0.99]` only. -/
def heuristic_proba (expFn : ℚ → ℚ) (feats : Feats) : ℚ :=
  let imb := match feats.imbalance with
    | some v => some v
    | none => some (feats.imb.getD 0)
  let spread := orZero feats.spread
  let tick := match feats.tick_size with
    | some v => v
    | none => feats.tick.getD (1/2)
  let spread_ticks := spread / max tick (1/1000000000)
  let macd_diff := match feats.macd, feats.macd_sig with
    | some m, some s => m - s
    | _, _ => 0
  let rsi := match feats.rsi14 with
    | some v => some v
    | none => feats.rsi
  let rsi_term := match rsi with
    | none => 0
    | some r => 1/2 - |1/2 - min (max (r / 100) 0) 1|
  let push := match feats.pushes_per_min with
    | some v => some v
    | none => some (feats.upd_per_min.getD 0)
  let last := orZero feats.last
  let vwap_diff_ticks := match feats.vwap with
    | none => 0
    | some w => (last - w) / max tick (1/1000000000)
  let z := (12/10) * orZero imb
    - (8/10) * max 0 (spread_ticks - 1/2)
    + (3/10) * macd_diff
    + (2/10) * rsi_term
    + (2/100) * orZero push
    + (15/100) * vwap_diff_ticks
  let p := 1 / (1 + expFn (-z))
  max (1/100) (min (99/100) p)

/-- `MLGate.evaluate` (ml_gate.py, lines 74-94).  `external_proba` models
the injected `proba_fn`; its `Option ℚ` result models the
`try: float(...) except: p = 0.5` wrapper (`none` = the call raised).
The audit `reason` string is not modelled. -/
def MLGate.evaluate (cfg : MLGateConfig)
    (external_proba : Option (Feats → Option ℚ)) (expFn : ℚ → ℚ)
    (intent : OrderIntent) (feats : Feats) : Decision :=
  if !cfg.enabled then
    { go := true, prob_tp_first := 1/2, ev_ticks := 0 }
  else
    let p := match external_proba with
      | some f => (f feats).getD (1/2)
      | none => heuristic_proba expFn feats
    let tp : Int := max 1 intent.tp_ticks
    let sl : Int := max 1 intent.sl_ticks
    let ev := p * tp - (1 - p) * sl - cfg.cost_ticks
    { go := decide (cfg.min_prob ≤ p) && decide (cfg.min_ev_ticks ≤ ev)
      prob_tp_first := p
      ev_ticks := ev }

/-! ## scalper/strategy/rules.py and scalper/strategy/policy.py -/

/-- `MarketSnapshot` (core/types.py); prices and derived values as in the
source, `bars_5m` omitted (no embedded consumer reads it). -/
structure MarketSnapshot where
  symbol : String := ""
  last_price : Option ℚ := none
  prev_close : Option ℚ := none
  best_bid : Option ℚ := none
  best_ask : Option ℚ := none
  bid_qty : Option ℚ := none
  ask_qty : Option ℚ := none
  spread : Option ℚ := none
  imbalance : Option ℚ := none
  microprice : Option ℚ := none
  vwap : Option ℚ := none
  pushes_per_min : ℚ := 0
  sma25 : Option ℚ := none
  macd : Option ℚ := none
  macd_sig : Option ℚ := none
  rsi14 : Option ℚ := none
  swing_higher_lows : Option Bool := none
  swing_lower_highs : Option Bool := none
  deriving Repr, DecidableEq

/-- `MarketSnapshot.to_features` (core/types.py, lines 68-88), restricted
to the keys some embedded consumer reads. -/
def MarketSnapshot.to_features (s : MarketSnapshot) : Feats :=
  { last := s.last_price, spread := s.spread, imbalance := s.imbalance,
    macd := s.macd, macd_sig := s.macd_sig, rsi14 := s.rsi14,
    pushes_per_min := some s.pushes_per_min, vwap := s.vwap }

/-- `RuleConfig` (rules.py). -/
structure RuleConfig where
  tick_size : ℚ := 1/2
  spread_ticks_max : Int := 1
  imbalance_th : ℚ := 3/5
  pushes_per_min_min : Int := 40
  use_vwap_filter : Bool := true
  use_sma25_filter : Bool := false
  use_macd_filter : Bool := false
  use_rsi_filter : Bool := false
  use_recent_return_filter : Bool := true
  recent_return_sec : ℚ := 7/10
  recent_return_abs_max : ℚ := 3/2
  default_qty : Int := 100
  entry_type : String := "LIMIT"
  tp_ticks : Int := 3
  sl_ticks : Int := 2
  trail_enabled : Bool := true
  trail_trigger : Int := 2
  trail_gap : Int := 1
  reason_detail : Bool := true
  deriving Repr, DecidableEq

/-- `RuleBasedStrategy._spread_ok` (rules.py, lines 49-55). -/
def spread_ok (cfg : RuleConfig) (spread : Option ℚ) : Bool :=
  match spread with
  | none => false
  | some s =>
    if cfg.tick_size ≤ 0 then false
    else decide (s / cfg.tick_size ≤ cfg.spread_ticks_max + 1/1000000000)

/-- `RuleBasedStrategy._recent_return_ok` (rules.py, lines 57-76). -/
def recent_return_ok (cfg : RuleConfig) (feats : Feats) (sd : String) :
    Bool :=
  if !cfg.use_recent_return_filter then true
  else
    match feats.recent_return_ticks with
    | none => true
    | some r =>
      if cfg.recent_return_abs_max < |r| then false
      else if sd = "BUY" ∧ cfg.recent_return_abs_max * (8/10) < r then
        false
      else if sd = "SELL" ∧ r < -(cfg.recent_return_abs_max * (8/10)) then
        false
      else true

/-- `RuleBasedStrategy._apply_technicals` (rules.py, lines 78-103): a
filter is consulted only when enabled and its inputs are present; it
passes when the side-specific alignment holds. -/
def apply_technicals (cfg : RuleConfig) (snap : MarketSnapshot)
    (sd : String) : Bool :=
  (if cfg.use_vwap_filter then
    match snap.vwap, snap.last_price with
    | some w, some l =>
      decide ((sd = "BUY" → w ≤ l) ∧ (sd = "SELL" → l ≤ w))
    | _, _ => true
  else true) &&
  (if cfg.use_sma25_filter then
    match snap.sma25, snap.last_price with
    | some m, some l =>
      decide ((sd = "BUY" → m ≤ l) ∧ (sd = "SELL" → l ≤ m))
    | _, _ => true
  else true) &&
  (if cfg.use_macd_filter then
    match snap.macd, snap.macd_sig with
    | some m, some sg =>
      decide ((sd = "BUY" → sg ≤ m) ∧ (sd = "SELL" → m ≤ sg))
    | _, _ => true
  else true) &&
  (if cfg.use_rsi_filter then
    match snap.rsi14 with
    | some r => decide ((sd = "BUY" → r ≤ 70) ∧ (sd = "SELL" → 30 ≤ r))
    | none => true
  else true)

/-- `RuleBasedStrategy.propose` (rules.py, lines 105-170).  The audit
`reasons` tags are kept without their f-string numeric suffixes.
`cfg.entry_type` is taken as already upper-case (the source calls
`.upper()` on a config constant). -/
def propose (cfg : RuleConfig) (snap : MarketSnapshot) (feats : Feats) :
    Option OrderIntent :=
  match snap.best_bid, snap.best_ask with
  | some _, some _ =>
    if !spread_ok cfg snap.spread then none
    else if snap.pushes_per_min < cfg.pushes_per_min_min then none
    else
      match snap.imbalance with
      | none => none
      | some imb =>
        let sideR : Option (String × String) :=
          if cfg.imbalance_th ≤ imb then some ("BUY", "imb>=th")
          else if imb ≤ -cfg.imbalance_th then some ("SELL", "imb<=-th")
          else none
        match sideR with
        | none => none
        | some (sd, imbTag) =>
          if !recent_return_ok cfg feats sd then none
          else if !apply_technicals cfg snap sd then none
          else
            let entry_type :=
              if cfg.entry_type = "LIMIT" then "LIMIT" else "MARKET"
            let price :=
              if cfg.entry_type = "LIMIT" then
                (if sd = "BUY" then snap.best_bid else snap.best_ask)
              else none
            some
              { side := sd, qty := cfg.default_qty
                entry_type := entry_type, price := price
                tp_ticks := cfg.tp_ticks, sl_ticks := cfg.sl_ticks
                trail := cfg.trail_enabled
                trail_trigger := cfg.trail_trigger
                trail_gap := cfg.trail_gap
                meta_reasons := if cfg.reason_detail then
                    ["spread_ok", "pushrate_ok", imbTag,
                     "recent_return_ok", "technicals_ok"]
                  else [] }
  | _, _ => none

/-- The feature dict one iteration of `StrategyPolicy._loop` (policy.py,
lines 67-76) builds: `to_features()` plus `tick_size` and
`recent_return_ticks` (the latter from the provider's price return,
converted to ticks; `none` when no provider is wired). -/
def policy_feats (rule_cfg : RuleConfig) (snap : MarketSnapshot)
    (recent_ret : Option ℚ) : Feats :=
  { snap.to_features with
    tick_size := some rule_cfg.tick_size
    recent_return_ticks :=
      match recent_ret with
      | some r => some (r / max rule_cfg.tick_size (1/1000000000))
      | none => none }

/-- One iteration of `StrategyPolicy._loop` (policy.py, lines 63-118),
returning the intent published on `strategy.intent` (`none` when the
iteration only publishes debug/decision audit events).  The loop body
consults the rule strategy and then the ML gate; no other gate appears in
it. -/
def loop_iter (rule_cfg : RuleConfig) (ml_cfg : MLGateConfig)
    (external_proba : Option (Feats → Option ℚ)) (expFn : ℚ → ℚ)
    (snap : MarketSnapshot) (recent_ret : Option ℚ) : Option OrderIntent :=
  let feats := policy_feats rule_cfg snap recent_ret
  match propose rule_cfg snap feats with
  | none => none
  | some intent =>
    if (MLGate.evaluate ml_cfg external_proba expFn intent feats).go then
      some intent
    else none

/-! ## scalper/core/bus.py -/

section Bus

variable {α : Type}

/-- A bus handler: called on an event, it either returns or raises (the
`Except` error is the exception message). -/
abbrev BusHandler (α : Type) := α → Except String Unit

/-- `try: h(event) except Exception: pass` (bus.py, lines 75-79): the
handler is invoked and an exception is swallowed; only the caught message
(if any) remains observable. -/
def tryCall (h : BusHandler α) (e : α) : Option String :=
  match h e with
  | Except.ok _ => none
  | Except.error m => some m

/-- One recorded handler invocation of the dispatch worker. -/
structure BusCall (α : Type) where
  wildcard : Bool
  topic : String
  handler : Nat
  event : α
  caught : Option String

/-- `for h in list(self._subs.get(topic, [])): try: h(event) ...`
(bus.py, lines 74-79): invoke every subscriber of the topic in
subscription order, recording each call; `j` is the running index. -/
def dispatchTopic (t : String) (e : α) : Nat → List (BusHandler α) →
    List (BusCall α)
  | _, [] => []
  | j, h :: hs =>
    ⟨false, t, j, e, tryCall h e⟩ :: dispatchTopic t e (j + 1) hs

/-- The wildcard pass (bus.py, lines 81-85): `"*"` subscribers receive the
event with the origin topic merged in; `inject` stands for the dict merge
`{"__topic__": topic, **event}`. -/
def dispatchWild (inject : String → α → α) (t : String) (e : α) :
    Nat → List (BusHandler α) → List (BusCall α)
  | _, [] => []
  | j, h :: hs =>
    ⟨true, t, j, inject t e, tryCall h (inject t e)⟩ ::
      dispatchWild inject t e (j + 1) hs

/-- `EventBus._loop` (bus.py, lines 65-85) run over a drained queue:
process `(topic, event)` pairs in order; the `"__stop__"` sentinel breaks
the loop; every other pair is dispatched to the topic's subscribers and
then to the wildcard subscribers.  `subs` models the `_subs` defaultdict
(`subs t = []` when nobody subscribed). -/
def busLoop (subs : String → List (BusHandler α)) (inject : String → α → α) :
    List (String × α) → List (BusCall α)
  | [] => []
  | (t, e) :: rest =>
    if t = "__stop__" then []
    else
      dispatchTopic t e 0 (subs t) ++ dispatchWild inject t e 0 (subs "*")
        ++ busLoop subs inject rest

/-- `EventBus.publish` (bus.py, lines 51-63) into a `queue.Queue(maxsize)`:
append when there is room; when full, evict the oldest pending entry and
append.  `cap = 0` models Python's unbounded queue (`maxsize <= 0`). -/
def pushEvict (cap : Nat) (q : List (String × α)) (e : String × α) :
    List (String × α) :=
  if cap = 0 then q ++ [e]
  else if q.length < cap then q ++ [e]
  else q.drop 1 ++ [e]

/-- Publish a sequence of `(topic, event)` pairs in order. -/
def busPublish (cap : Nat) (q : List (String × α))
    (events : List (String × α)) : List (String × α) :=
  events.foldl (pushEvict cap) q

/-- The events delivered to subscriber `j` of topic `t`, in call order,
read off the dispatch record. -/
def deliveredTo (t : String) (j : Nat) (log : List (BusCall α)) : List α :=
  log.filterMap fun c =>
    if c.wildcard = false ∧ c.topic = t ∧ c.handler = j then some c.event
    else none

end Bus

/-- `if x is not None: field = float(x)`: keep the old value on `none`. -/
def updOpt {α : Type} (x old : Option α) : Option α :=
  match x with
  | some v => some v
  | none => old

/-! ## scalper/execution/position_tracker.py -/

/-- `Position` (position_tracker.py). -/
structure Position where
  symbol : String
  side : String
  qty : Int
  entry_px : ℚ
  entry_ts : ℚ
  tp_ticks : Int
  sl_ticks : Int
  trail : Bool
  trail_trigger : Int
  trail_gap : Int
  peak_ticks : Int := 0
  trail_stop_px : Option ℚ := none
  deriving Repr, DecidableEq

/-- `Fill` (position_tracker.py). -/
structure Fill where
  symbol : String
  side : String
  qty : Int
  price : ℚ
  ts : ℚ
  kind : String
  deriving Repr, DecidableEq

/-- `Ledger` (position_tracker.py). -/
structure Ledger where
  positions : List Position := []
  fills : List Fill := []
  realized_pnl_ticks : ℚ := 0
  deriving Repr, DecidableEq

/-- Python `str.startswith`, written over the character lists of the two
strings (Lean's own byte-level `String` functions do not evaluate inside
the kernel). -/
def pyStartsWith (s pre : String) : Bool := pre.toList.isPrefixOf s.toList

/-- The index scan of `Ledger.record_fill` (position_tracker.py, lines
52-57): walk `range(len(positions)-1, -1, -1)` and pop the first position
(counting from the end) whose symbol matches; returns the popped position
and the remaining list, or `none` when no symbol matches. -/
def popLastMatching (sym : String) : List Position →
    Option (Position × List Position)
  | [] => none
  | p :: rest =>
    match popLastMatching sym rest with
    | some (q, rest') => some (q, p :: rest')
    | none => if p.symbol = sym then some (p, rest) else none

/-- `Ledger.record_fill` (position_tracker.py, lines 46-65): always append
the fill; on an `EXIT*` fill pop the latest position of the same symbol,
realize its P&L in ticks and return it, else return `0.0`. -/
def Ledger.record_fill (l : Ledger) (f : Fill) (tick_size : ℚ) :
    Ledger × ℚ :=
  let l' := { l with fills := l.fills ++ [f] }
  if pyStartsWith f.kind "EXIT" then
    match popLastMatching f.symbol l'.positions with
    | some (pos, rest) =>
      let mult : ℚ := if pos.side = "BUY" then 1 else -1
      let pnl_px := (f.price - pos.entry_px) * mult
      let pnl_ticks := pnl_px / max tick_size (1/1000000000)
      ({ l' with
          positions := rest
          realized_pnl_ticks := l'.realized_pnl_ticks + pnl_ticks },
        pnl_ticks)
    | none => (l', 0)
  else (l', 0)

/-! ## scalper/execution/simulator.py -/

/-- `SimConfig` (simulator.py): the numeric fields (topic names and the
CSV path configure only I/O and are not modelled). -/
structure SimConfig where
  tick_size : ℚ := 1/2
  slippage_ticks_entry : ℚ := 0
  slippage_ticks_exit : ℚ := 0
  deriving Repr, DecidableEq

/-- `Simulator` mutable state: ledger, risk counters, current best quotes
and last seen symbol. -/
structure SimState where
  cfg : SimConfig := {}
  ledger : Ledger := {}
  risk : RiskState := {}
  symbol : Option String := none
  best_bid : Option ℚ := none
  best_ask : Option ℚ := none
  deriving Repr, DecidableEq

/-- Python `int(x)` on a float: truncation toward zero. -/
def truncInt (q : ℚ) : Int := if 0 ≤ q then ⌊q⌋ else ⌈q⌉

/-- The `while i < len(self.ledger.positions)` body of
`Simulator._evaluate_exits` (simulator.py, lines 142-197).  `fuel` is an
upper bound on the remaining iterations (each iteration advances `i` or
shrinks the position list, so `len(positions) + 1` at entry suffices);
`now` is `time.time()`. -/
def evalExitsLoop (cfg : SimConfig) (bid ask now : ℚ) :
    Nat → Nat → Ledger → RiskState → Ledger × RiskState
  | 0, _, led, rk => (led, rk)
  | fuel + 1, i, led, rk =>
    match led.positions[i]? with
    | none => (led, rk)
    | some pos =>
      let tick := cfg.tick_size
      -- クローズ側から見た約定価格 (source comment: the fill price as seen
      -- from the closing side); the code picks best_bid for a SELL
      -- position and best_ask otherwise
      let mkt_px := if pos.side = "SELL" then bid else ask
      let mult : ℚ := if pos.side = "BUY" then 1 else -1
      let pnl_ticks := (mkt_px - pos.entry_px) * mult
        / max tick (1/1000000000)
      let pos1 :=
        if pos.trail then
          let pa :=
            if (pos.peak_ticks : ℚ) < pnl_ticks then
              { pos with peak_ticks := truncInt pnl_ticks }
            else pos
          if pa.trail_trigger ≤ pa.peak_ticks then
            { pa with trail_stop_px := some (if pa.side = "BUY" then
                mkt_px - pa.trail_gap * tick
              else
                mkt_px + pa.trail_gap * tick) }
          else pa
        else pos
      let exit_kind : Option String :=
        if (pos1.tp_ticks : ℚ) ≤ pnl_ticks then some "EXIT_TP"
        else if pnl_ticks ≤ -(pos1.sl_ticks : ℚ) then some "EXIT_SL"
        else
          match pos1.trail_stop_px with
          | some stp =>
            if (pos1.side = "BUY" ∧ mkt_px ≤ stp) ∨
                (pos1.side = "SELL" ∧ stp ≤ mkt_px) then
              some "EXIT_TRAIL"
            else none
          | none => none
      let led1 := { led with positions := led.positions.set i pos1 }
      match exit_kind with
      | some kind =>
        let slip := cfg.slippage_ticks_exit * tick
        let px_eff := if pos1.side = "BUY" then mkt_px - slip
          else mkt_px + slip
        let f : Fill :=
          { symbol := pos1.symbol
            side := if pos1.side = "BUY" then "SELL" else "BUY"
            qty := pos1.qty, price := px_eff, ts := now, kind := kind }
        let res := led1.record_fill f tick
        evalExitsLoop cfg bid ask now fuel i res.1
          (on_exit_filled rk pos1.qty res.2)
      | none => evalExitsLoop cfg bid ask now fuel (i + 1) led1 rk

/-- `Simulator._evaluate_exits` (simulator.py, lines 135-197): nothing to
do without open positions or without both best quotes. -/
def evaluate_exits (st : SimState) (now : ℚ) : SimState :=
  if st.ledger.positions.isEmpty then st
  else
    match st.best_bid, st.best_ask with
    | some bid, some ask =>
      let res := evalExitsLoop st.cfg bid ask now
        (st.ledger.positions.length + 1) 0 st.ledger st.risk
      { st with ledger := res.1, risk := res.2 }
    | _, _ => st

/-- `Simulator._on_best` (simulator.py, lines 56-64): refresh the symbol
and the non-`None` quote fields, then evaluate exits. -/
def on_best (st : SimState) (symbol : Option String) (b a : Option ℚ)
    (now : ℚ) : SimState :=
  evaluate_exits
    { st with
      symbol := match symbol with | some s => some s | none => st.symbol
      best_bid := updOpt b st.best_bid
      best_ask := updOpt a st.best_ask }
    now

/-- Position fixture builder (entry time 0, fresh trailing state), used by
the concrete evaluations below. -/
def mkPos (sym sd : String) (qty : Int) (entry : ℚ) (tp sl : Int)
    (tr : Bool) (trigger gap : Int) : Position :=
  { symbol := sym, side := sd, qty := qty, entry_px := entry,
    entry_ts := 0, tp_ticks := tp, sl_ticks := sl, trail := tr,
    trail_trigger := trigger, trail_gap := gap }

/-! ## scalper/analytics/indicators.py -/

/-- The slice of `IndicatorEngine` state that the best-quote feed touches:
current best quotes and quantities, plus the push-rate timestamp deque. -/
structure IndicatorState where
  best_bid : Option ℚ := none
  best_ask : Option ℚ := none
  bid_qty : Option ℚ := none
  ask_qty : Option ℚ := none
  push_ts : List ℚ := []
  deriving Repr, DecidableEq

/-- `IndicatorEngine._mark_push` (indicators.py, lines 129-133): append the
event time and drop entries older than 60s from the front. -/
def mark_push (st : IndicatorState) (ts : Option ℚ) (sysNow : ℚ) :
    IndicatorState :=
  let t := ts.getD sysNow
  { st with push_ts := (st.push_ts ++ [t]).dropWhile (fun x => x < t - 60) }

/-- A normalized `best` event (`BestQuote` in market/feed.py): the four
price/quantity fields the indicator engine reads, each possibly absent. -/
structure BestEv where
  bid : Option ℚ := none
  bid_qty : Option ℚ := none
  ask : Option ℚ := none
  ask_qty : Option ℚ := none
  ts : Option ℚ := none
  deriving Repr, DecidableEq

/-- `IndicatorEngine.feed_best` (indicators.py, lines 96-106). -/
def feed_best (st : IndicatorState) (ev : BestEv) (sysNow : ℚ) :
    IndicatorState :=
  mark_push
    { st with
      best_bid := updOpt ev.bid st.best_bid
      best_ask := updOpt ev.ask st.best_ask
      bid_qty := updOpt ev.bid_qty st.bid_qty
      ask_qty := updOpt ev.ask_qty st.ask_qty }
    ev.ts sysNow

/-- `IndicatorEngine.imbalance` (indicators.py, lines 219-225):
`None` when a quantity is missing or the sum is not positive, else
`(bidQty - askQty) / (bidQty + askQty)`. -/
def imbalance (st : IndicatorState) : Option ℚ :=
  match st.bid_qty, st.ask_qty with
  | some bq, some aq =>
    let s := bq + aq
    if s ≤ 0 then none else some ((bq - aq) / s)
  | _, _ => none

/-- Fresh `IndicatorEngine` state (constructor defaults). -/
def initIndicator : IndicatorState := {}

/-- Feed a sequence of best-quote events, each paired with the system
clock value at its arrival. -/
def runFeedBest (st : IndicatorState) (evs : List (BestEv × ℚ)) :
    IndicatorState :=
  evs.foldl (fun s p => feed_best s p.1 p.2) st

end KabusGui

namespace KabusGui

/-! ## Theorems: C4 and C5 -/

/-- C4: `apply_gate` hard-vetoes (allow = false) iff a last verdict exists
with score at or above the threshold and side equal to the proposed side;
in every other case it allows, returning the confidence unchanged when no
verdict exists and otherwise reduced by `suppress_weight * score`, hence
never above the original confidence (for nonnegative confidence, weight
and score). -/
theorem apply_gate_veto_iff (cfg : SpoofGateConfig)
    (last_state : Option SpoofVerdict) (side : String) (conf : ℚ)
    (hconf : 0 ≤ conf) (hw : 0 ≤ cfg.suppress_weight)
    (hs : ∀ s, last_state = some s → 0 ≤ s.score) :
    ((apply_gate cfg last_state side conf).1 = false ↔
      ∃ s, last_state = some s ∧ cfg.score_threshold ≤ s.score ∧
        s.side = side) ∧
    (last_state = none → apply_gate cfg last_state side conf = (true, conf)) ∧
    (∀ s, last_state = some s →
      (apply_gate cfg last_state side conf).1 = true →
      (apply_gate cfg last_state side conf).2 =
        max 0 (conf - cfg.suppress_weight * s.score)) ∧
    ((apply_gate cfg last_state side conf).1 = true →
      (apply_gate cfg last_state side conf).2 ≤ conf) := by
  match last_state with
  | none =>
    refine ⟨?_, ?_, ?_, ?_⟩ <;> simp [apply_gate]
  | some s =>
    have hscore : 0 ≤ s.score := hs s rfl
    by_cases hveto : cfg.score_threshold ≤ s.score ∧ s.side = side
    · refine ⟨?_, ?_, ?_, ?_⟩ <;> simp [apply_gate, hveto]
    · have hpen : 0 ≤ cfg.suppress_weight * s.score := mul_nonneg hw hscore
      refine ⟨?_, ?_, ?_, ?_⟩ <;>
        first
        | (simp [apply_gate, hveto, max_le_iff, hconf]; linarith)
        | simp [apply_gate, hveto, max_le_iff, hconf]

/-- C4 witness: a verdict of score 0.9 on side "B" against threshold 0.7
vetoes a proposed "B" entry. -/
theorem apply_gate_veto_iff_witness :
    (apply_gate {} (some ⟨"B", "flash", 9/10, 120, 500⟩) "B" (4/5)).1
      = false := by
  have h := apply_gate_veto_iff {} (some ⟨"B", "flash", 9/10, 120, 500⟩)
    "B" (4/5) (by norm_num) (by norm_num)
    (by intro s hs; cases hs; norm_num)
  exact h.1.mpr ⟨⟨"B", "flash", 9/10, 120, 500⟩, rfl, by norm_num, rfl⟩

/-- C5: `can_enter` returns `false` with a reason other than `"ok"`
whenever the market-hours check fails, or the quantity is nonpositive, or
the open quantity plus the requested quantity exceeds `max_pos_qty`, or the
consecutive-loss count has reached `max_consec_losses`, or the cooldown
since the last entry has not elapsed. -/
theorem can_enter_false_of_violation (cfg : RiskConfig) (st : RiskState)
    (qty : Int) (now_ts : Option ℚ) (sysNow : ℚ) (tm : Tm)
    (h : is_market_open cfg tm = false ∨ qty ≤ 0 ∨
      cfg.max_pos_qty < st.open_qty + qty ∨
      cfg.max_consec_losses ≤ st.consec_losses ∨
      resolveNow now_ts sysNow - st.last_entry_ts < cfg.cooldown_sec) :
    (can_enter cfg st qty now_ts sysNow tm).1 = false ∧
    (can_enter cfg st qty now_ts sysNow tm).2 ≠ "ok" := by
  unfold can_enter
  rcases h with h | h | h | h | h <;>
    repeat' split <;> simp_all

/-- C5 witness: with the default cap 1000, an open quantity of 950 and a
request of 100 the entry is rejected. -/
theorem can_enter_false_of_violation_witness :
    (can_enter {} { open_qty := 950 } 100 (some 10) 10
      ⟨0, 10, 0⟩).1 = false := by
  exact (can_enter_false_of_violation {} { open_qty := 950 } 100 (some 10) 10
    ⟨0, 10, 0⟩ (Or.inr (Or.inr (Or.inl (by norm_num))))).1

section BusTheorems

variable {α : Type}

lemma deliveredTo_append (t : String) (j : Nat) (l₁ l₂ : List (BusCall α)) :
    deliveredTo t j (l₁ ++ l₂) = deliveredTo t j l₁ ++ deliveredTo t j l₂ :=
  List.filterMap_append _ _ _

lemma deliveredTo_cons (t : String) (j : Nat) (c : BusCall α)
    (l : List (BusCall α)) :
    deliveredTo t j (c :: l) =
      (if c.wildcard = false ∧ c.topic = t ∧ c.handler = j then [c.event]
        else []) ++ deliveredTo t j l := by
  simp only [deliveredTo, List.filterMap_cons]
  split <;> simp_all

lemma deliveredTo_dispatchTopic (t t' : String) (e : α) (j k : Nat)
    (hs : List (BusHandler α)) :
    deliveredTo t j (dispatchTopic t' e k hs) =
      if t' = t ∧ k ≤ j ∧ j < k + hs.length then [e] else [] := by
  induction hs generalizing k with
  | nil =>
    rw [dispatchTopic, if_neg]
    · simp [deliveredTo]
    · rintro ⟨-, h1, h2⟩
      simp only [List.length_nil] at h2
      omega
  | cons h rest ih =>
    rw [dispatchTopic, deliveredTo_cons, ih]
    simp only [List.length_cons]
    split_ifs <;> simp_all <;> omega

lemma deliveredTo_dispatchWild (inject : String → α → α) (t t' : String)
    (e : α) (j k : Nat) (hs : List (BusHandler α)) :
    deliveredTo t j (dispatchWild inject t' e k hs) = [] := by
  induction hs generalizing k with
  | nil => simp [dispatchWild, deliveredTo]
  | cons h rest ih =>
    rw [dispatchWild, deliveredTo_cons, ih]
    simp

lemma busPublish_no_overflow (cap : Nat) (q events : List (String × α))
    (h : cap = 0 ∨ q.length + events.length ≤ cap) :
    busPublish cap q events = q ++ events := by
  induction events generalizing q with
  | nil => simp [busPublish]
  | cons e rest ih =>
    have hpush : pushEvict cap q e = q ++ [e] := by
      rcases h with h | h
      · simp [pushEvict, h]
      · have hlt : q.length < cap := by
          simp only [List.length_cons, List.length_nil] at h
          omega
        unfold pushEvict
        split_ifs <;> rfl
    show busPublish cap (pushEvict cap q e) rest = q ++ e :: rest
    rw [hpush, ih (q ++ [e]) ?_]
    · simp
    · rcases h with h | h
      · exact Or.inl h
      · refine Or.inr ?_
        simp only [List.length_append, List.length_singleton,
          List.length_cons, List.length_nil] at h ⊢
        omega

end BusTheorems

lemma deliveredTo_busLoop {α : Type}
    (subs : String → List (BusHandler α)) (inject : String → α → α)
    (queue : List (String × α)) (t : String) (j : Nat)
    (hstop : ∀ p ∈ queue, p.1 ≠ "__stop__") (hj : j < (subs t).length) :
    deliveredTo t j (busLoop subs inject queue) =
      (queue.filter fun p => p.1 == t).map Prod.snd := by
  induction queue with
  | nil => simp [busLoop, deliveredTo]
  | cons p rest ih =>
    obtain ⟨t', e⟩ := p
    have ht' : t' ≠ "__stop__" := hstop (t', e) (List.mem_cons_self _ _)
    have ihrest := ih (fun q hq => hstop q (List.mem_cons_of_mem _ hq))
    simp only [busLoop, if_neg ht', deliveredTo_append,
      deliveredTo_dispatchTopic, deliveredTo_dispatchWild, ihrest,
      List.filter_cons]
    by_cases htt : t' = t
    · subst htt
      simp [hj]
    · rw [if_neg (by rintro ⟨h1, -⟩; exact htt h1)]
      simp [htt]

/-- Nonnegativity of the recorded best quantities. -/
def qtysOk (st : IndicatorState) : Prop :=
  (∀ q, st.bid_qty = some q → 0 ≤ q) ∧ (∀ q, st.ask_qty = some q → 0 ≤ q)

lemma qtysOk_feed_best (st : IndicatorState) (ev : BestEv) (sysNow : ℚ)
    (hst : qtysOk st)
    (hb : ∀ q, ev.bid_qty = some q → 0 ≤ q)
    (ha : ∀ q, ev.ask_qty = some q → 0 ≤ q) :
    qtysOk (feed_best st ev sysNow) := by
  obtain ⟨hstb, hsta⟩ := hst
  constructor <;> intro q hq
  · have hq' : updOpt ev.bid_qty st.bid_qty = some q := by
      simpa [feed_best, mark_push] using hq
    cases hev : ev.bid_qty with
    | none => exact hstb q (by simpa [updOpt, hev] using hq')
    | some v =>
      have hvq : v = q := by simpa [updOpt, hev] using hq'
      exact hvq ▸ hb v hev
  · have hq' : updOpt ev.ask_qty st.ask_qty = some q := by
      simpa [feed_best, mark_push] using hq
    cases hev : ev.ask_qty with
    | none => exact hsta q (by simpa [updOpt, hev] using hq')
    | some v =>
      have hvq : v = q := by simpa [updOpt, hev] using hq'
      exact hvq ▸ ha v hev

lemma qtysOk_runFeedBest (st : IndicatorState) (evs : List (BestEv × ℚ))
    (hst : qtysOk st)
    (h : ∀ p ∈ evs, (∀ q, (p : BestEv × ℚ).1.bid_qty = some q → 0 ≤ q) ∧
      (∀ q, (p : BestEv × ℚ).1.ask_qty = some q → 0 ≤ q)) :
    qtysOk (runFeedBest st evs) := by
  induction evs generalizing st with
  | nil => exact hst
  | cons p rest ih =>
    have hp := h p (List.mem_cons_self _ _)
    exact ih (feed_best st p.1 p.2)
      (qtysOk_feed_best st p.1 p.2 hst hp.1 hp.2)
      (fun q hq => h q (List.mem_cons_of_mem _ hq))

lemma imbalance_bounds_of_qtysOk (st : IndicatorState) (hst : qtysOk st) :
    imbalance st = none ∨
      ∃ v, imbalance st = some v ∧ -1 ≤ v ∧ v ≤ 1 := by
  unfold imbalance
  cases hb : st.bid_qty with
  | none => exact Or.inl rfl
  | some bq =>
    cases ha : st.ask_qty with
    | none => exact Or.inl rfl
    | some aq =>
      by_cases hs : bq + aq ≤ 0
      · exact Or.inl (by simp [hs])
      · have hbq : 0 ≤ bq := hst.1 bq hb
        have haq : 0 ≤ aq := hst.2 aq ha
        have hpos : 0 < bq + aq := lt_of_not_le hs
        refine Or.inr ⟨(bq - aq) / (bq + aq), by simp [hs], ?_, ?_⟩
        · rw [le_div_iff₀ hpos]
          linarith
        · rw [div_le_one hpos]
          linarith

/-- C1, evaluated at the failing input: `_evaluate_exits` prices the exit
of a BUY position from the **best ask** (`best_bid if side == "SELL" else
best_ask`), not the best bid as the claim states.  A BUY position (entry
100.0, tick 0.5, tp 3, sl 2) that sees `best {bid: 101.5, ask: 102.0}`
exits TAKE-PROFIT at 102.0 (4 ticks), not at 101.5; and if only the bid
rises to 101.5 (ask stays 100.5), no exit fires at all. -/
theorem sim_exit_priced_from_ask_for_long :
    (on_best
        { ledger := { positions := [mkPos "7203" "BUY" 100 100 3 2
            false 2 1] }
          symbol := some "7203"
          best_bid := some 100
          best_ask := some (201/2) }
        none (some (1015/10)) (some 102) 1).ledger =
      { positions := []
        fills := [{ symbol := "7203", side := "SELL", qty := 100,
                    price := 102, ts := 1, kind := "EXIT_TP" }]
        realized_pnl_ticks := 4 } ∧
    (on_best
        { ledger := { positions := [mkPos "7203" "BUY" 100 100 3 2
            false 2 1] }
          symbol := some "7203"
          best_bid := some 100
          best_ask := some (1005/10) }
        none (some (1015/10)) none 1).ledger.fills = [] ∧
    (102 : ℚ) ≠ 1015/10 := by
  have hbs : ("BUY" : String) ≠ "SELL" := by decide
  refine ⟨?_, ?_, by norm_num⟩
  · simp only [on_best, updOpt, evaluate_exits]
    norm_num [mkPos]
    rw [evalExitsLoop]
    norm_num [hbs, max_def, truncInt]
    rw [evalExitsLoop]
    norm_num [Ledger.record_fill, pyStartsWith, List.isPrefixOf,
      popLastMatching, on_exit_filled, hbs]
  · simp only [on_best, updOpt, evaluate_exits]
    norm_num [mkPos]
    rw [evalExitsLoop]
    norm_num [hbs, max_def, truncInt]
    rw [evalExitsLoop]
    norm_num

/-- C2, evaluated at the failing input: once armed, the trailing stop is
recomputed from the **current** quote on every update (`trail_stop_px =
mkt_px - gap*tick`), so on an adverse move it drops.  BUY entry 100, tick
0.5, trigger 1, gap 2: a quote at 101 arms the stop at 100.0; the next
quote at 100.5 (adverse) moves the stop down to 99.5 while the position
stays open — the stop both changed on an adverse update and loosened. -/
theorem sim_trail_stop_loosens_on_adverse_move :
    ((on_best
        { ledger := { positions := [mkPos "7203" "BUY" 100 100 100 100
            true 1 2] }
          best_bid := some 100
          best_ask := some 100 }
        none (some (201/2)) (some 101) 1).ledger.positions.map
      (fun p => p.trail_stop_px) = [some 100]) ∧
    ((on_best (on_best
        { ledger := { positions := [mkPos "7203" "BUY" 100 100 100 100
            true 1 2] }
          best_bid := some 100
          best_ask := some 100 }
        none (some (201/2)) (some 101) 1)
        none (some 100) (some (201/2)) 2).ledger.positions.map
      (fun p => p.trail_stop_px) = [some (199/2)]) ∧
    (199/2 : ℚ) < 100 := by
  have hbs : ("BUY" : String) ≠ "SELL" := by decide
  have h1 : on_best
      { ledger := { positions := [mkPos "7203" "BUY" 100 100 100 100
          true 1 2] }
        best_bid := some 100
        best_ask := some 100 }
      none (some (201/2)) (some 101) 1 =
      { ledger := { positions := [{ mkPos "7203" "BUY" 100 100 100 100
          true 1 2 with peak_ticks := 2, trail_stop_px := some 100 }] }
        best_bid := some (201/2)
        best_ask := some 101 } := by
    simp only [on_best, updOpt, evaluate_exits]
    norm_num [mkPos]
    rw [evalExitsLoop]
    norm_num [hbs, max_def, truncInt]
    rw [evalExitsLoop]
    norm_num [mkPos]
  refine ⟨?_, ?_, by norm_num⟩
  · rw [h1]
    norm_num [mkPos]
  · rw [h1]
    simp only [on_best, updOpt, evaluate_exits]
    norm_num [mkPos]
    rw [evalExitsLoop]
    norm_num [hbs, max_def, truncInt]
    rw [evalExitsLoop]
    norm_num [mkPos]

lemma popLastMatching_eq_none (sym : String) (ps : List Position)
    (h : ∀ p ∈ ps, p.symbol ≠ sym) : popLastMatching sym ps = none := by
  induction ps with
  | nil => rfl
  | cons p rest ih =>
    rw [popLastMatching, ih (fun q hq => h q (List.mem_cons_of_mem _ hq))]
    simp [h p (List.mem_cons_self _ _)]

lemma popLastMatching_last (sym : String) (xs : List Position)
    (p : Position) (ys : List Position) (hp : p.symbol = sym)
    (hys : ∀ q ∈ ys, q.symbol ≠ sym) :
    popLastMatching sym (xs ++ p :: ys) = some (p, xs ++ ys) := by
  induction xs with
  | nil =>
    simp only [List.nil_append]
    rw [popLastMatching, popLastMatching_eq_none sym ys hys]
    simp [hp]
  | cons x xs ih =>
    simp only [List.cons_append]
    rw [popLastMatching, ih]

/-- C10: on a fill whose kind starts with `"EXIT"`, `record_fill` removes
the most recently added position with the fill's symbol — matching by
symbol only, the position's side is irrelevant — appends the fill, and
realizes that position's P&L; when no position carries the symbol it
returns `0.0` and changes nothing but the fill history. -/
theorem record_fill_exit_spec (l : Ledger) (f : Fill) (tick : ℚ)
    (hkind : pyStartsWith f.kind "EXIT" = true) :
    ((∀ p ∈ l.positions, p.symbol ≠ f.symbol) →
      Ledger.record_fill l f tick =
        ({ l with fills := l.fills ++ [f] }, 0)) ∧
    (∀ xs p ys, l.positions = xs ++ p :: ys → p.symbol = f.symbol →
      (∀ q ∈ ys, q.symbol ≠ f.symbol) →
      (Ledger.record_fill l f tick).1.positions = xs ++ ys ∧
      (Ledger.record_fill l f tick).1.fills = l.fills ++ [f] ∧
      (Ledger.record_fill l f tick).2 =
        (f.price - p.entry_px) * (if p.side = "BUY" then 1 else -1)
          / max tick (1/1000000000) ∧
      (Ledger.record_fill l f tick).1.realized_pnl_ticks =
        l.realized_pnl_ticks + (Ledger.record_fill l f tick).2) := by
  constructor
  · intro h
    simp [Ledger.record_fill, hkind, popLastMatching_eq_none f.symbol _ h]
  · intro xs p ys hdecomp hp hys
    have hpop : popLastMatching f.symbol l.positions = some (p, xs ++ ys) :=
      hdecomp ▸ popLastMatching_last f.symbol xs p ys hp hys
    refine ⟨?_, ?_, ?_, ?_⟩ <;>
      simp [Ledger.record_fill, hkind, hpop]

/-- C10 witness: a ledger holding a BUY then a SELL position on the same
symbol; an exit fill pops the SELL (most recent, despite the fill's own
side), and an exit fill on an unknown symbol only appends to history. -/
theorem record_fill_exit_spec_witness :
    (Ledger.record_fill
      { positions := [mkPos "X" "BUY" 1 100 3 2 false 2 1,
                      mkPos "X" "SELL" 1 101 3 2 false 2 1] }
      { symbol := "X", side := "BUY", qty := 1, price := 99, ts := 5,
        kind := "EXIT_SL" } (1/2)).1.positions =
      [mkPos "X" "BUY" 1 100 3 2 false 2 1] := by
  have h := (record_fill_exit_spec
    { positions := [mkPos "X" "BUY" 1 100 3 2 false 2 1,
                    mkPos "X" "SELL" 1 101 3 2 false 2 1] }
    { symbol := "X", side := "BUY", qty := 1, price := 99, ts := 5,
      kind := "EXIT_SL" } (1/2) (by decide)).2
    [mkPos "X" "BUY" 1 100 3 2 false 2 1]
    (mkPos "X" "SELL" 1 101 3 2 false 2 1)
    [] rfl rfl (by simp)
  simpa using h.1

/-- C8 counterexample: the claim quantifies over every best-event
sequence, but nothing in the code rejects a negative quantity: feeding
`bid_qty = -5`, `ask_qty = 10` leaves the quantity sum positive and yields
imbalance `-3`, which is non-null and outside `[-1, 1]`. -/
theorem imbalance_range_counterexample :
    imbalance (runFeedBest initIndicator
        [(⟨some 100, some (-5), some 101, some 10, some 0⟩, 0)])
      = some (-3) ∧ ¬ (-1 : ℚ) ≤ -3 := by
  constructor
  · norm_num [imbalance, runFeedBest, feed_best, mark_push, updOpt,
      initIndicator]
  · norm_num

/-- C8 (amended): over every best-event sequence whose present quantities
are nonnegative, the imbalance is either null (a quantity missing, or the
quantity sum not positive) or lies within `[-1, 1]`. -/
theorem imbalance_null_or_in_unit_range (evs : List (BestEv × ℚ))
    (h : ∀ p ∈ evs, (∀ q, (p : BestEv × ℚ).1.bid_qty = some q → 0 ≤ q) ∧
      (∀ q, (p : BestEv × ℚ).1.ask_qty = some q → 0 ≤ q)) :
    imbalance (runFeedBest initIndicator evs) = none ∨
      ∃ v, imbalance (runFeedBest initIndicator evs) = some v ∧
        -1 ≤ v ∧ v ≤ 1 := by
  refine imbalance_bounds_of_qtysOk _ (qtysOk_runFeedBest _ evs ?_ h)
  constructor <;> intro q hq <;> simp [initIndicator] at hq

/-- C8 witness: a single well-formed best event (quantities 30 and 10). -/
theorem imbalance_null_or_in_unit_range_witness :
    imbalance (runFeedBest initIndicator
        [(⟨some 100, some 30, some 101, some 10, some 0⟩, 0)]) = none ∨
      ∃ v, imbalance (runFeedBest initIndicator
          [(⟨some 100, some 30, some 101, some 10, some 0⟩, 0)]) = some v ∧
        -1 ≤ v ∧ v ≤ 1 := by
  refine imbalance_null_or_in_unit_range _ ?_
  intro p hp
  fin_cases hp
  constructor <;> intro q hq <;> simp_all <;> linarith

/-- C6: when the published events fit in the queue (no eviction), every
subscriber `j` of topic `t` is invoked once per published `t`-event, in
publish order, regardless of what any handler (raising or not) does; the
interleaved events of other topics and the wildcard pass never reach it. -/
theorem bus_delivers_every_event {α : Type}
    (subs : String → List (BusHandler α)) (inject : String → α → α)
    (cap : Nat) (events : List (String × α)) (t : String) (j : Nat)
    (hstop : ∀ p ∈ events, p.1 ≠ "__stop__")
    (hcap : cap = 0 ∨ events.length ≤ cap)
    (hj : j < (subs t).length) :
    deliveredTo t j (busLoop subs inject (busPublish cap [] events)) =
      (events.filter fun p => p.1 == t).map Prod.snd := by
  rw [busPublish_no_overflow cap [] events (by simpa using hcap),
    List.nil_append]
  exact deliveredTo_busLoop subs inject events t j hstop hj

/-- C6 witness: three events on topic "news" with two handlers, the first
of which raises on every call; both handlers receive `[1, 2, 3]`. -/
theorem bus_delivers_every_event_witness :
    (deliveredTo "news" 0 (busLoop
        (fun s => if s = "news" then
          [fun _ => Except.error "boom", fun _ => Except.ok ()] else [])
        (fun _ e => e)
        (busPublish 10000 [] [("news", 1), ("news", 2), ("news", 3)]))
      = [1, 2, 3]) ∧
    (deliveredTo "news" 1 (busLoop
        (fun s => if s = "news" then
          [fun _ => Except.error "boom", fun _ => Except.ok ()] else [])
        (fun _ e => e)
        (busPublish 10000 [] [("news", 1), ("news", 2), ("news", 3)]))
      = [1, 2, 3]) := by
  constructor
  · rw [bus_delivers_every_event _ _ _ _ _ _
      (by intro p hp; fin_cases hp <;> simp)
      (Or.inr (by norm_num)) (by simp)]
    rfl
  · rw [bus_delivers_every_event _ _ _ _ _ _
      (by intro p hp; fin_cases hp <;> simp)
      (Or.inr (by norm_num)) (by simp)]
    rfl

/-- C3 counterexample: the strategy-policy loop body contains no spoof
gate — it goes rule proposal → ML gate → publish.  On a snapshot passing
the rules (spread 1 tick, imbalance 0.8, push-rate 100/min) with the ML
gate disabled, the loop publishes a BUY intent even though the spoof
detector's gate (`spoofing.py`), fed a same-side verdict of score 0.9
against threshold 0.7, rejects side "B": a spoof-gate-rejected intent is
published, because the loop never consults that gate. -/
theorem policy_no_spoof_gate_counterexample :
    loop_iter {} {} none (fun _ => 1)
      { symbol := "7203", last_price := some 100, prev_close := some 99,
        best_bid := some 100, best_ask := some (201/2),
        bid_qty := some 500, ask_qty := some 100, spread := some (1/2),
        imbalance := some (4/5), pushes_per_min := 100 } none =
      some { side := "BUY", qty := 100, entry_type := "LIMIT",
             price := some 100, tp_ticks := 3, sl_ticks := 2,
             trail := true, trail_trigger := 2, trail_gap := 1,
             meta_reasons := ["spread_ok", "pushrate_ok", "imb>=th",
               "recent_return_ok", "technicals_ok"] } ∧
    (apply_gate {} (some ⟨"B", "flash", 9/10, 100, 500⟩) "B" (4/5)).1 =
      false := by
  constructor
  · norm_num [loop_iter, policy_feats, MarketSnapshot.to_features, propose,
      spread_ok, recent_return_ok, apply_technicals, MLGate.evaluate]
  · norm_num [apply_gate]

/-- C3 (amended): in each iteration of the policy loop, an intent is
published exactly when the rule-based proposal produces it and the ML gate
then accepts it on the same iteration's features; an intent either of
these two stages rejects is never published.  (The spoof gate is not part
of this loop.) -/
theorem policy_publishes_iff (rule_cfg : RuleConfig)
    (ml_cfg : MLGateConfig) (external_proba : Option (Feats → Option ℚ))
    (expFn : ℚ → ℚ) (snap : MarketSnapshot) (recent_ret : Option ℚ)
    (i : OrderIntent) :
    loop_iter rule_cfg ml_cfg external_proba expFn snap recent_ret =
      some i ↔
    (propose rule_cfg snap (policy_feats rule_cfg snap recent_ret) =
      some i ∧
     (MLGate.evaluate ml_cfg external_proba expFn i
        (policy_feats rule_cfg snap recent_ret)).go = true) := by
  cases hp : propose rule_cfg snap (policy_feats rule_cfg snap recent_ret)
    with
  | none => simp [loop_iter, hp]
  | some j =>
    simp only [loop_iter, hp]
    by_cases hgo : (MLGate.evaluate ml_cfg external_proba expFn j
        (policy_feats rule_cfg snap recent_ret)).go = true
    · simp only [hgo, if_true, Option.some.injEq]
      constructor
      · rintro rfl
        exact ⟨rfl, hgo⟩
      · rintro ⟨hj, -⟩
        exact hj
    · simp only [Bool.not_eq_true] at hgo
      simp only [hgo, Bool.false_eq_true, if_false]
      constructor
      · rintro h
        exact absurd h (by simp)
      · rintro ⟨hj, hgi⟩
        obtain rfl : j = i := (Option.some.injEq _ _).mp hj
        rw [hgo] at hgi
        exact absurd hgi (by simp)

/-- C7 counterexample: the claim says `EV = p*tp_ticks - (1-p)*sl_ticks -
cost_ticks`, but `evaluate` clamps both tick distances to at least 1
(`tp = max(1, int(intent.tp_ticks))`): with `tp_ticks = 0`, `sl_ticks = 2`,
an injected estimator returning 0.5 and cost 0.1, the code yields
EV = -0.6 while the claim's formula yields -1.1. -/
theorem ml_evaluate_ev_counterexample :
    (MLGate.evaluate { enabled := true } (some fun _ => some (1/2))
      (fun _ => 1)
      { side := "BUY", qty := 100, entry_type := "LIMIT", price := none,
        tp_ticks := 0, sl_ticks := 2, trail := true, trail_trigger := 2,
        trail_gap := 1 } {}).ev_ticks
    ≠ (1/2) * ((0 : Int) : ℚ) - (1 - 1/2) * ((2 : Int) : ℚ) - 1/10 := by
  norm_num [MLGate.evaluate]

/-- C7 (amended): a disabled gate always accepts with probability 0.5 and
EV 0; an enabled gate computes `EV = p*max(1,tp_ticks) - (1-p)*max(1,sl_ticks)
- cost_ticks`, accepts exactly when `p ≥ min_prob` and `EV ≥ min_ev_ticks`,
and, when no external estimator is injected, uses the heuristic
probability, which is clamped to `[0.01, 0.99]`. -/
theorem ml_evaluate_spec (cfg : MLGateConfig)
    (external_proba : Option (Feats → Option ℚ)) (expFn : ℚ → ℚ)
    (intent : OrderIntent) (feats : Feats) :
    (cfg.enabled = false →
      MLGate.evaluate cfg external_proba expFn intent feats =
        { go := true, prob_tp_first := 1/2, ev_ticks := 0 }) ∧
    (cfg.enabled = true →
      (MLGate.evaluate cfg external_proba expFn intent feats).ev_ticks =
        (MLGate.evaluate cfg external_proba expFn intent feats).prob_tp_first
            * ((max 1 intent.tp_ticks : Int) : ℚ)
          - (1 - (MLGate.evaluate cfg external_proba expFn intent
              feats).prob_tp_first) * ((max 1 intent.sl_ticks : Int) : ℚ)
          - cfg.cost_ticks ∧
      ((MLGate.evaluate cfg external_proba expFn intent feats).go = true ↔
        cfg.min_prob ≤
          (MLGate.evaluate cfg external_proba expFn intent
            feats).prob_tp_first ∧
        cfg.min_ev_ticks ≤
          (MLGate.evaluate cfg external_proba expFn intent
            feats).ev_ticks) ∧
      (external_proba = none →
        (MLGate.evaluate cfg external_proba expFn intent
            feats).prob_tp_first = heuristic_proba expFn feats)) ∧
    (1/100 ≤ heuristic_proba expFn feats ∧
      heuristic_proba expFn feats ≤ 99/100) := by
  refine ⟨?_, ?_, ?_, ?_⟩
  · intro h
    simp [MLGate.evaluate, h]
  · intro h
    cases external_proba <;>
      simp [MLGate.evaluate, h, Bool.and_eq_true, decide_eq_true_iff]
  · exact le_max_left _ _
  · unfold heuristic_proba
    exact max_le (by norm_num) (min_le_left _ _)

/-- C7 witness: the amended theorem evaluated on a disabled gate. -/
theorem ml_evaluate_spec_witness :
    MLGate.evaluate {} none (fun _ => 1)
      { side := "BUY", qty := 100, entry_type := "LIMIT", price := none,
        tp_ticks := 3, sl_ticks := 2, trail := true, trail_trigger := 2,
        trail_gap := 1 } {} =
      { go := true, prob_tp_first := 1/2, ev_ticks := 0 } := by
  exact (ml_evaluate_spec {} none (fun _ => 1)
    { side := "BUY", qty := 100, entry_type := "LIMIT", price := none,
      tp_ticks := 3, sl_ticks := 2, trail := true, trail_trigger := 2,
      trail_gap := 1 } {}).1 rfl

/-- C9 counterexample: the claim quantifies over every sequence of
entry/exit callback calls, but an entry callback with a negative quantity
drives the open quantity negative (only the exit callback clamps at 0). -/
theorem risk_open_qty_negative_counterexample :
    (runRiskCalls {} [RiskCall.entry (-5) 1]).open_qty < 0 := by
  decide

/-- C9 (amended): over every callback sequence whose entry quantities are
nonnegative, the open quantity never becomes negative (exits clamp at 0),
and an exit with `pnl_ticks = 0` resets the consecutive-loss counter. -/
theorem risk_open_qty_nonneg (st : RiskState) (calls : List RiskCall)
    (hst : 0 ≤ st.open_qty)
    (hcalls : ∀ q t, RiskCall.entry q t ∈ calls → 0 ≤ q) :
    0 ≤ (runRiskCalls st calls).open_qty ∧
    (∀ q, (on_exit_filled st q 0).consec_losses = 0) := by
  constructor
  · induction calls generalizing st with
    | nil => exact hst
    | cons c rest ih =>
      cases c with
      | entry q t =>
        have hq : 0 ≤ q := hcalls q t (List.mem_cons_self _ _)
        refine ih (on_entry_filled st q t) ?_ ?_
        · simpa [on_entry_filled] using add_nonneg hst hq
        · intro q' t' hmem; exact hcalls q' t' (List.mem_cons_of_mem _ hmem)
      | exit q p =>
        refine ih (on_exit_filled st q p) ?_ ?_
        · simp [on_exit_filled]
        · intro q' t' hmem; exact hcalls q' t' (List.mem_cons_of_mem _ hmem)
  · intro q
    simp [on_exit_filled]

/-- C9 witness: a deep exit from a small open position clamps at 0. -/
theorem risk_open_qty_nonneg_witness :
    0 ≤ (runRiskCalls {} [RiskCall.entry 100 1,
      RiskCall.exit 300 0]).open_qty := by
  exact (risk_open_qty_nonneg {} [RiskCall.entry 100 1, RiskCall.exit 300 0]
    (by norm_num) (by intro q t hmem; simp_all)).1

end KabusGui
